import Mathlib

/-!
Verification of the Echo-Hole voice note widget (`src/index.tsx`) against its
natural-language specification.  The transcript-to-note pipeline is embedded
shallowly: DOM state (status text, control enablement) becomes explicit record
fields, browser events become inductive event values, and the external JSON
codec is modelled at the level of JSON values (`JSON.stringify` followed by
`JSON.parse` is the identity on JSON values, so the persisted blob is carried
as a `JsValue`).
-/

namespace EchoHole

/-- Runtime JSON values, the value space shared by `JSON.parse`,
`JSON.stringify` and the summarization response body. -/
inductive JsValue where
  | null
  | bool (b : Bool)
  | num (n : Int)
  | str (s : String)
  | arr (xs : List JsValue)
  | obj (fields : List (String × JsValue))
deriving Repr

/-- The `Note` record of `src/index.tsx` lines 23-27:
`{ id: number; note: string; tags: string[] }`.  `id` is a millisecond
timestamp (`Date.now()`), embedded as `Int`. -/
structure Note where
  id : Int
  note : String
  tags : List String
deriving DecidableEq, Repr

/-- JSON encoding of one note, in the field order of the `Note` type
declaration, which is the order `JSON.stringify` serializes. -/
def encodeNote (n : Note) : JsValue :=
  .obj [("id", .num n.id), ("note", .str n.note), ("tags", .arr (n.tags.map .str))]

/-- JSON encoding of the full note list, as produced by
`JSON.stringify(notes)` in `saveNotes` (line 57). -/
def encodeNotes (notes : List Note) : JsValue :=
  .arr (notes.map encodeNote)

/-- Reads a list of JSON values back as a list of strings, used when
decoding the `tags` array of the expected note shape. -/
def asStrList : List JsValue → Option (List String)
  | [] => some []
  | .str s :: rest =>
      match asStrList rest with
      | some ss => some (s :: ss)
      | none => none
  | _ => none

/-- Reader for the expected shape of one persisted note: an object with a
numeric `id`, a string `note` and a string-array `tags`, in serialized
order.  This is the shape the `Note` type of the source declares; the source
itself never validates it on load. -/
def decodeNote : JsValue → Option Note
  | .obj [("id", .num i), ("note", .str s), ("tags", .arr ts)] =>
      match asStrList ts with
      | some tags => some { id := i, note := s, tags := tags }
      | none => none
  | _ => none

/-- Reader for the expected sequence-of-Note shape of the persisted blob:
a JSON array each of whose elements has the note shape. -/
def decodeNoteList : List JsValue → Option (List Note)
  | [] => some []
  | v :: rest =>
      match decodeNote v, decodeNoteList rest with
      | some n, some ns => some (n :: ns)
      | _, _ => none

/-- Reader for the expected sequence-of-Note shape of the persisted blob. -/
def decodeNotes : JsValue → Option (List Note)
  | .arr xs => decodeNoteList xs
  | _ => none

/-- `saveNotes` (lines 56-58): serializes the full list and overwrites the
stored blob unconditionally.  Modelled at the JSON level: the stored blob is
the encoded value. -/
def saveNotes (notes : List Note) : JsValue :=
  encodeNotes notes

/-- `loadNotes` (lines 60-70).  `savedNotes` models the stored blob after the
external `JSON.parse` ran on it: `none` models `getItem` returning `null` (or
an empty, hence falsy, string), `some (Except.error ())` models a blob on
which `JSON.parse` threw, and `some (Except.ok v)` models a blob that parsed
to the JSON value `v`.  `notes` is the current value of the module-level
`notes` variable; the function returns its new value.  The source assigns the
parsed value without any shape validation. -/
def loadNotes (savedNotes : Option (Except Unit JsValue)) (notes : JsValue) : JsValue :=
  match savedNotes with
  | none => notes
  | some (.error _) => .arr []
  | some (.ok v) => v

/-- `notes.unshift(newNote)` (line 135): prepends a note to the store. -/
def unshift (n : Note) (notes : List Note) : List Note :=
  n :: notes

/-- `deleteNote` (lines 150-154): keeps exactly the notes whose id differs
from the deleted one. -/
def deleteNote (idToDelete : Int) (notes : List Note) : List Note :=
  notes.filter (fun n => n.id ≠ idToDelete)

/-- The per-tag display text of `renderNotes` (line 171):
`tag.startsWith("#") ? tag : ` followed by a hash-interpolation of the tag.
The JavaScript `tag.startsWith("#")` test with a one-character argument is
true exactly when the first character of the tag is `#`. -/
def tagText (tag : String) : String :=
  if tag.data.head? = some '#' then tag else "#" ++ tag

/-- Outcome of one summarization call as observed by `processTranscript`
(lines 116-146): the request may reject (network or API error), the response
text may fail `JSON.parse`, or it parses to an object whose `note` and `tags`
fields are each either absent or carry a value of the schema-declared type.
The response schema (lines 90-105) declares `note : string` and
`tags : string[]` as required, and the source casts the parsed value to that
shape without checking it. -/
inductive SummOutcome where
  | netError
  | badJson
  | parsed (note : Option String) (tags : Option (List String))

/-- JavaScript truthiness of `parsed.note`: an absent field is falsy
(`undefined`), a present string is truthy iff non-empty. -/
def jsTruthyNote : Option String → Bool
  | none => false
  | some s => s != ""

/-- JavaScript truthiness of `parsed.tags`: an absent field is falsy
(`undefined`), a present array is always truthy (even when empty). -/
def jsTruthyTags : Option (List String) → Bool
  | none => false
  | some _ => true

/-- The UI-facing state touched by `processTranscript`: the in-memory note
store, the status text and the disabled flags of the mic button and the
language selector. -/
structure UiState where
  notes : List Note
  status : String
  micDisabled : Bool
  langDisabled : Bool
deriving DecidableEq, Repr

/-- `processTranscript` (lines 107-147) as a state transformer over the
summarization outcome.  It first shows "Thinking..." and disables both
controls; on a parsed response it accepts iff both fields are truthy
(`if (parsed.note && parsed.tags)`, line 129) and then prepends the new note
(with `id := Date.now()`, passed in as `now`); on a thrown error the catch
block writes a generic error status; the finally block (lines 142-146) then
unconditionally resets the status to the idle prompt and re-enables both
controls.  The `transcript` argument only feeds the prompt text and does not
influence the resulting state. -/
def processTranscript (transcript : String) (outcome : SummOutcome) (now : Int)
    (s : UiState) : UiState :=
  let busy : UiState :=
    { s with status := "Thinking...", micDisabled := true, langDisabled := true }
  let afterTry : UiState :=
    match outcome with
    | .netError => { busy with status := "Error: Could not process the thought." }
    | .badJson => { busy with status := "Error: Could not process the thought." }
    | .parsed note tags =>
        if jsTruthyNote note && jsTruthyTags tags then
          { busy with
              notes := unshift { id := now, note := note.getD "", tags := tags.getD [] } busy.notes }
        else busy
  { afterTry with
      status := "Tap the mic to capture a thought",
      micDisabled := false, langDisabled := false }

/-- One recognition result fragment: `event.results[i]` restricted to its
first alternative, carrying the `isFinal` flag and the transcript text. -/
structure Fragment where
  isFinal : Bool
  transcript : String
deriving DecidableEq, Repr

/-- The state touched by the speech-session handlers: the `isListening` flag,
the mic button's `listening` CSS class, the `finalTranscript` accumulator,
the status text, the control disabled flags, and — as instrumentation of the
hand-off — the list of transcripts passed to `processTranscript` so far. -/
structure RecState where
  isListening : Bool
  micListening : Bool
  finalTranscript : String
  status : String
  micDisabled : Bool
  langDisabled : Bool
  handed : List String
deriving DecidableEq, Repr

/-- The loop of `recognition.onresult` (lines 225-231): walks the new results
in index order, appending final fragments to the `finalTranscript`
accumulator and interim fragments to the per-event `interimTranscript`. -/
def resultLoop (frags : List Fragment) (finalAcc interimAcc : String) : String × String :=
  match frags with
  | [] => (finalAcc, interimAcc)
  | f :: rest =>
      if f.isFinal then resultLoop rest (finalAcc ++ f.transcript) interimAcc
      else resultLoop rest finalAcc (interimAcc ++ f.transcript)

/-- `recognition.onresult` (lines 223-233).  `frags` are the results from
`event.resultIndex` on, each reduced to its first alternative.  The status
shows the interim text, falling back to "Listening..." when it is empty
(`interimTranscript || "Listening..."`). -/
def onresult (s : RecState) (frags : List Fragment) : RecState :=
  let acc := resultLoop frags s.finalTranscript ""
  { s with
      finalTranscript := acc.1,
      status := if acc.2 = "" then "Listening..." else acc.2 }

/-- `recognition.onerror` (lines 247-253): surfaces the error kind, leaves
listening mode and re-enables the language selector.  It does not touch the
`finalTranscript` accumulator. -/
def onerror (s : RecState) (kind : String) : RecState :=
  { s with
      status := "Error: " ++ kind,
      isListening := false,
      micListening := false,
      langDisabled := false }

/-- `recognition.onend` (lines 235-244): leaves listening mode and, when the
accumulator is non-empty, hands it to `processTranscript` — whose synchronous
prefix immediately shows "Thinking..." and disables both controls; otherwise
resets the status to the idle prompt. -/
def onend (s : RecState) : RecState :=
  let s1 : RecState := { s with isListening := false, micListening := false, langDisabled := false }
  if s1.finalTranscript = "" then
    { s1 with status := "Tap the mic to capture a thought" }
  else
    { s1 with
        handed := s1.handed ++ [s1.finalTranscript],
        status := "Thinking...",
        micDisabled := true,
        langDisabled := true }

/-- One event delivered by the browser's recognition engine to the three
registered handlers. -/
inductive SpeechEv where
  | result (frags : List Fragment)
  | err (kind : String)
  | ended

/-- Dispatch of one recognition event to its handler. -/
def speechStep (s : RecState) (e : SpeechEv) : RecState :=
  match e with
  | .result frags => onresult s frags
  | .err kind => onerror s kind
  | .ended => onend s

/-- Delivery of a sequence of recognition events in order. -/
def runSession (s : RecState) (evs : List SpeechEv) : RecState :=
  evs.foldl speechStep s

/-- The mic-toggle-on branch of the click handler (lines 200-205): enters
listening mode, disables the language selector, shows "Listening..." and
resets the `finalTranscript` accumulator. -/
def startSession (s : RecState) : RecState :=
  { s with
      isListening := true,
      micListening := true,
      langDisabled := true,
      status := "Listening...",
      finalTranscript := "" }

/-- Concatenation, in order, of the transcripts of the fragments flagged
final. -/
def joinFinal : List Fragment → String
  | [] => ""
  | f :: rest => if f.isFinal then f.transcript ++ joinFinal rest else joinFinal rest

/-- Concatenation, in order, of the transcripts of the fragments flagged
interim. -/
def joinInterim : List Fragment → String
  | [] => ""
  | f :: rest => if f.isFinal then joinInterim rest else f.transcript ++ joinInterim rest

end EchoHole

namespace EchoHole

/-! ### Helper lemmas -/

theorem asStrList_map_str (ts : List String) : asStrList (ts.map JsValue.str) = some ts := by
  induction ts with
  | nil => rfl
  | cons h t ih => simp [asStrList, ih]

theorem decodeNote_encodeNote (n : Note) : decodeNote (encodeNote n) = some n := by
  simp [decodeNote, encodeNote, asStrList_map_str]

theorem decodeNotes_encodeNotes (ns : List Note) : decodeNotes (encodeNotes ns) = some ns := by
  induction ns with
  | nil => rfl
  | cons h t ih =>
      simp only [encodeNotes, decodeNotes, List.map_cons, decodeNoteList, decodeNote_encodeNote]
      simp only [encodeNotes, decodeNotes] at ih
      simp [ih]

theorem resultLoop_eq (frags : List Fragment) :
    ∀ fa ia, resultLoop frags fa ia = (fa ++ joinFinal frags, ia ++ joinInterim frags) := by
  induction frags with
  | nil => intro fa ia; simp [resultLoop, joinFinal, joinInterim]
  | cons f rest ih =>
      intro fa ia
      by_cases hf : f.isFinal <;>
        simp [resultLoop, joinFinal, joinInterim, hf, ih, String.append_assoc]

theorem onresult_fields (s : RecState) (frags : List Fragment) :
    (onresult s frags).finalTranscript = s.finalTranscript ++ joinFinal frags ∧
    (onresult s frags).status =
      (if joinInterim frags = "" then "Listening..." else joinInterim frags) ∧
    (onresult s frags).handed = s.handed := by
  simp [onresult, resultLoop_eq, String.empty_append]

theorem joinFinal_append (a b : List Fragment) :
    joinFinal (a ++ b) = joinFinal a ++ joinFinal b := by
  induction a with
  | nil => simp [joinFinal, String.empty_append]
  | cons f rest ih =>
      by_cases hf : f.isFinal <;> simp [joinFinal, hf, ih, String.append_assoc]

theorem runSession_results (evs : List (List Fragment)) :
    ∀ s : RecState,
      (runSession s (evs.map SpeechEv.result)).finalTranscript
          = s.finalTranscript ++ joinFinal evs.flatten ∧
      (runSession s (evs.map SpeechEv.result)).handed = s.handed := by
  induction evs with
  | nil => intro s; simp [runSession, joinFinal]
  | cons e rest ih =>
      intro s
      have h1 := onresult_fields s e
      have h2 := ih (onresult s e)
      constructor
      · calc (runSession s ((e :: rest).map SpeechEv.result)).finalTranscript
            = (runSession (onresult s e) (rest.map SpeechEv.result)).finalTranscript := by
              simp [runSession, speechStep]
          _ = (onresult s e).finalTranscript ++ joinFinal rest.flatten := h2.1
          _ = s.finalTranscript ++ joinFinal e ++ joinFinal rest.flatten := by rw [h1.1]
          _ = s.finalTranscript ++ joinFinal ((e :: rest).flatten) := by
              simp [joinFinal_append, String.append_assoc]
      · calc (runSession s ((e :: rest).map SpeechEv.result)).handed
            = (runSession (onresult s e) (rest.map SpeechEv.result)).handed := by
              simp [runSession, speechStep]
          _ = (onresult s e).handed := h2.2
          _ = s.handed := h1.2.2

/-! ### Claim theorems -/

/-- C1: for every sequence of recognition result events delivered during one
listening session, the transcript handed to the summarization call equals the
concatenation, in arrival order, of exactly the fragments flagged final (when
that concatenation is empty nothing is handed); fragments flagged interim are
never added to the accumulator and appear only transiently as status text. -/
theorem session_transcript_concat_of_finals (s : RecState) (evs : List (List Fragment)) :
    (runSession (startSession s) (evs.map SpeechEv.result ++ [SpeechEv.ended])).handed =
      s.handed ++
        (if joinFinal evs.flatten = "" then [] else [joinFinal evs.flatten]) ∧
    ∀ st frags,
      (onresult st frags).finalTranscript = st.finalTranscript ++ joinFinal frags ∧
      (onresult st frags).status =
        (if joinInterim frags = "" then "Listening..." else joinInterim frags) := by
  constructor
  · have hmid := runSession_results evs (startSession s)
    have hsplit :
        runSession (startSession s) (evs.map SpeechEv.result ++ [SpeechEv.ended])
          = onend (runSession (startSession s) (evs.map SpeechEv.result)) := by
      simp [runSession, List.foldl_append, speechStep]
    rw [hsplit]
    have hft : (runSession (startSession s) (evs.map SpeechEv.result)).finalTranscript
        = joinFinal evs.flatten := by
      rw [hmid.1]; simp [startSession, String.empty_append]
    have hh : (runSession (startSession s) (evs.map SpeechEv.result)).handed = s.handed := by
      rw [hmid.2]; rfl
    by_cases hJ : joinFinal evs.flatten = "" <;> simp [onend, hft, hh, hJ]
  · intro st frags
    exact ⟨(onresult_fields st frags).1, (onresult_fields st frags).2.1⟩

/-- C2 counterexample: the persisted blob `42` is valid JSON but does not
have the sequence-of-Note shape, yet `loadNotes` assigns it to the store
unchanged instead of yielding an empty sequence. -/
theorem loadNotes_wrong_shape_kept :
    loadNotes (some (Except.ok (JsValue.num 42))) (JsValue.arr []) = JsValue.num 42 ∧
    decodeNotes (JsValue.num 42) = none ∧
    loadNotes (some (Except.ok (JsValue.num 42))) (JsValue.arr []) ≠ JsValue.arr [] :=
  ⟨rfl, rfl, nofun⟩

/-- C2 amended: `loadNotes` never throws; it yields an empty sequence exactly
when `JSON.parse` throws on the stored blob, keeps the current store when no
(truthy) blob is present, and assigns any successfully parsed JSON value to
the store without validating its shape. -/
theorem loadNotes_parse_error_empty (v cur : JsValue) :
    loadNotes (some (Except.error ())) cur = JsValue.arr [] ∧
    loadNotes none cur = cur ∧
    loadNotes (some (Except.ok v)) cur = v :=
  ⟨rfl, rfl, rfl⟩

/-- C3: on any failing summarization outcome — network error, malformed JSON
response, or a required field absent — the note store is unchanged; and on
every outcome, success or failure alike, the mic button and the language
selector are re-enabled on completion. -/
theorem processTranscript_failure_cleanup (t : String) (o : SummOutcome) (now : Int)
    (s : UiState) :
    ((o = .netError ∨ o = .badJson ∨
        (∃ nt tg, o = .parsed nt tg ∧ (nt = none ∨ tg = none))) →
      (processTranscript t o now s).notes = s.notes) ∧
    (processTranscript t o now s).micDisabled = false ∧
    (processTranscript t o now s).langDisabled = false := by
  refine ⟨?_, rfl, rfl⟩
  intro h
  rcases h with h | h | ⟨nt, tg, h, habs⟩
  · subst h; rfl
  · subst h; rfl
  · subst h
    rcases habs with habs | habs <;> subst habs <;>
      simp [processTranscript, jsTruthyNote, jsTruthyTags]

/-- C3 witness: a malformed-JSON outcome on a concrete state leaves the store
unchanged and re-enables both controls. -/
theorem processTranscript_failure_cleanup_witness :
    (processTranscript "x" SummOutcome.badJson 0 ⟨[], "", false, false⟩).notes = [] ∧
    (processTranscript "x" SummOutcome.badJson 0 ⟨[], "", false, false⟩).micDisabled = false ∧
    (processTranscript "x" SummOutcome.badJson 0 ⟨[], "", false, false⟩).langDisabled = false :=
  ⟨(processTranscript_failure_cleanup "x" SummOutcome.badJson 0 ⟨[], "", false, false⟩).1
      (Or.inr (Or.inl rfl)),
   (processTranscript_failure_cleanup "x" SummOutcome.badJson 0 ⟨[], "", false, false⟩).2.1,
   (processTranscript_failure_cleanup "x" SummOutcome.badJson 0 ⟨[], "", false, false⟩).2.2⟩

/-- C4: prepending a note, saving, then loading round-trips the prepended
note unchanged, and it is the head of the loaded sequence. -/
theorem prepend_save_load_roundtrip (n : Note) (ns : List Note) (cur : JsValue) :
    decodeNotes (loadNotes (some (Except.ok (saveNotes (unshift n ns)))) cur)
      = some (n :: ns) ∧
    (decodeNotes (loadNotes (some (Except.ok (saveNotes (unshift n ns)))) cur)).bind
        List.head? = some n := by
  have h : decodeNotes (loadNotes (some (Except.ok (saveNotes (unshift n ns)))) cur)
      = some (n :: ns) := decodeNotes_encodeNotes (n :: ns)
  exact ⟨h, by rw [h]; rfl⟩

/-- C5: on a summarization failure the catch block's failure message is
immediately overwritten by the finally block, so at completion the status
text is the idle prompt, not the generic failure message. -/
theorem processTranscript_error_status_overwritten :
    (processTranscript "hello" SummOutcome.netError 0
        ⟨[], "Listening...", true, true⟩).status = "Tap the mic to capture a thought" ∧
    (processTranscript "hello" SummOutcome.netError 0
        ⟨[], "Listening...", true, true⟩).status ≠ "Error: Could not process the thought." ∧
    (processTranscript "hello" SummOutcome.badJson 0
        ⟨[], "Listening...", true, true⟩).status = "Tap the mic to capture a thought" := by
  refine ⟨rfl, ?_, rfl⟩
  decide

/-- C6 counterexample: after a session accumulates the final fragment
"hello", an error event arrives and the engine's terminal end event follows;
the partial accumulator is not abandoned — it is handed to the summarization
client. -/
theorem onerror_partial_transcript_still_handed :
    (runSession
        (startSession ⟨false, false, "", "Tap the mic to capture a thought",
          false, false, []⟩)
        [SpeechEv.result [⟨true, "hello"⟩], SpeechEv.err "no-speech",
          SpeechEv.ended]).handed = ["hello"] ∧
    (["hello"] : List String) ≠ [] := by
  refine ⟨by decide, nofun⟩

/-- C6 amended: a recognition error event transitions the session directly to
Idle and surfaces the error kind as status text, but it retains (does not
clear) the partial transcript accumulator and by itself hands nothing to the
summarization client — so a following end event still hands a non-empty
accumulator over. -/
theorem onerror_idle_status_accumulator_kept (s : RecState) (kind : String) :
    (onerror s kind).isListening = false ∧
    (onerror s kind).micListening = false ∧
    (onerror s kind).langDisabled = false ∧
    (onerror s kind).status = "Error: " ++ kind ∧
    (onerror s kind).finalTranscript = s.finalTranscript ∧
    (onerror s kind).handed = s.handed :=
  ⟨rfl, rfl, rfl, rfl, rfl, rfl⟩

/-- C7: removing an id that no note in the store carries leaves both the
in-memory sequence and the persisted snapshot unchanged. -/
theorem deleteNote_absent_id_noop (i : Int) (ns : List Note)
    (h : ∀ n ∈ ns, n.id ≠ i) :
    deleteNote i ns = ns ∧ saveNotes (deleteNote i ns) = saveNotes ns := by
  have heq : deleteNote i ns = ns :=
    List.filter_eq_self.mpr (fun n hn => by simpa using h n hn)
  exact ⟨heq, by rw [heq]⟩

/-- C7 witness: removing id 2 from a store holding only id 1 is a no-op. -/
theorem deleteNote_absent_id_noop_witness :
    deleteNote 2 [⟨1, "a", ["t"]⟩] = [⟨1, "a", ["t"]⟩] :=
  (deleteNote_absent_id_noop 2 [⟨1, "a", ["t"]⟩] (by decide)).1

/-- C8 counterexample: the tag "##a" already starts with a marker, so it is
rendered unchanged — carrying two leading markers, not exactly one. -/
theorem tagText_double_hash :
    tagText "##a" = "##a" ∧
    "##a".data.head? = some '#' ∧
    ("##a".data.drop 1).head? = some '#' := by
  decide

/-- C8 amended: a tag whose first character is not a marker is rendered with
one prepended, and a tag already starting with a marker is rendered unchanged
(so a tag carrying several leading markers keeps all of them). -/
theorem tagText_marker_cases (tag : String) :
    (tag.data.head? = some '#' → tagText tag = tag) ∧
    (tag.data.head? ≠ some '#' → tagText tag = "#" ++ tag) := by
  constructor <;> intro h <;> simp [tagText, h]

/-- C8 amended witness: "ab" renders as "#ab" and "#x" renders unchanged. -/
theorem tagText_marker_cases_witness :
    tagText "#x" = "#x" ∧ tagText "ab" = "#ab" :=
  ⟨(tagText_marker_cases "#x").1 (by decide), (tagText_marker_cases "ab").2 (by decide)⟩

/-- C9: when the parsed summarization response has a falsy `note` or `tags`
field — an empty-string note, or an absent field — the operation completes
with no note created, the status showing the idle prompt rather than the
failure message, and both controls re-enabled: acceptance is decided by
truthiness of both fields, not by mere presence. -/
theorem processTranscript_falsy_fields_rejected (t : String) (nt : Option String)
    (tg : Option (List String)) (now : Int) (s : UiState)
    (h : jsTruthyNote nt = false ∨ jsTruthyTags tg = false) :
    (processTranscript t (.parsed nt tg) now s).notes = s.notes ∧
    (processTranscript t (.parsed nt tg) now s).status
        = "Tap the mic to capture a thought" ∧
    (processTranscript t (.parsed nt tg) now s).status
        ≠ "Error: Could not process the thought." ∧
    (processTranscript t (.parsed nt tg) now s).micDisabled = false ∧
    (processTranscript t (.parsed nt tg) now s).langDisabled = false := by
  have hg : (jsTruthyNote nt && jsTruthyTags tg) = false := by
    rcases h with h | h <;> simp [h]
  have hst : (processTranscript t (.parsed nt tg) now s).status
      = "Tap the mic to capture a thought" := rfl
  refine ⟨by simp [processTranscript, hg], hst, ?_, rfl, rfl⟩
  rw [hst]
  decide

/-- C9 witness: a response whose `note` field is the empty string (with a
present, truthy `tags` array) is rejected by truthiness. -/
theorem processTranscript_falsy_fields_rejected_witness :
    jsTruthyNote (some "") = false ∧
    (processTranscript "x" (SummOutcome.parsed (some "") (some ["a"])) 7
        ⟨[], "", false, false⟩).notes = [] ∧
    (processTranscript "x" (SummOutcome.parsed (some "") (some ["a"])) 7
        ⟨[], "", false, false⟩).status = "Tap the mic to capture a thought" :=
  ⟨by decide,
   (processTranscript_falsy_fields_rejected "x" (some "") (some ["a"]) 7
      ⟨[], "", false, false⟩ (Or.inl (by decide))).1,
   (processTranscript_falsy_fields_rejected "x" (some "") (some ["a"]) 7
      ⟨[], "", false, false⟩ (Or.inl (by decide))).2.1⟩

/-- C10: `deleteNote` removes every note whose id equals the given id — no
note with that id survives, every note with a different id keeps its exact
multiplicity, and the result is a sublist (order preserved) of the store. -/
theorem deleteNote_removes_all_matches (i : Int) (ns : List Note) :
    (∀ n ∈ deleteNote i ns, n.id ≠ i) ∧
    (∀ n : Note, n.id ≠ i → (deleteNote i ns).count n = ns.count n) ∧
    (deleteNote i ns).Sublist ns := by
  refine ⟨?_, ?_, List.filter_sublist ns⟩
  · intro n hn
    have := List.mem_filter.mp hn
    simpa using this.2
  · intro n hni
    simp [deleteNote, List.count_filter, hni]

/-- C10 witness: a store with two notes sharing id 5 loses both in a single
removal. -/
theorem deleteNote_removes_all_matches_witness :
    (∀ n ∈ deleteNote 5 [⟨5, "a", []⟩, ⟨5, "b", []⟩, ⟨6, "c", []⟩], n.id ≠ 5) ∧
    deleteNote 5 [⟨5, "a", []⟩, ⟨5, "b", []⟩, ⟨6, "c", []⟩] = [⟨6, "c", []⟩] :=
  ⟨(deleteNote_removes_all_matches 5 [⟨5, "a", []⟩, ⟨5, "b", []⟩, ⟨6, "c", []⟩]).1,
   by decide⟩

end EchoHole
